import Mathlib

/-!
Verification of the SODA conference-program scraper (`sodaprogram.py`).

The development shallowly embeds the program's three stages:
* `parseMainTable` — the table-scanning state machine of `fetch_main_page`
  (lines 56-190), over an abstract document model of table rows;
* `timeRangeLabel` and `fetchSessionDetails` — the per-group time-range
  computation and the early-return of the detail fetcher
  (`fetch_all_session_details`, lines 221-262, `fetch_session_details`,
  lines 192-219);
* `generateHtml` together with `determineMaxConcurrentSessions` — the
  renderer (lines 264-372), producing the exact output byte sequence.

External collaborators (HTTP transport, BeautifulSoup text extraction,
`urllib.parse.urljoin`) are passed in as parameters or appear as already
extracted fields of the row model.  Machine-level string primitives of
Python (`re` patterns, `datetime.strptime`/`strftime`, `str.split`,
`str.replace`, `str.strip`) are modelled character-by-character over
`List Char`; the models follow CPython's semantics restricted to ASCII
text (Python's `\w`, `\s`, `\d` and case folding are Unicode-aware; all
inputs relevant here are ASCII).
-/

namespace Soda

/-! ### Character and string primitives -/

/-- ASCII model of Python's `\s` / `str.strip` whitespace set. -/
def isWsChar (c : Char) : Bool :=
  c = ' ' || c = '\t' || c = '\n' || c = '\x0d' || c = '\x0b' || c = '\x0c'

/-- ASCII model of the regex word-character class `\w` (used by `\b`). -/
def isWordChar (c : Char) : Bool :=
  c.isAlphanum || c = '_'

/-- Lower-case a string (ASCII case folding, models `str.lower` /
`re.IGNORECASE` on ASCII input). -/
def lowerStr (s : String) : String :=
  ⟨s.data.map Char.toLower⟩

/-- `containsSub n h` holds iff `n` occurs as a contiguous substring of `h`
(Python's `in` on strings). -/
def containsSub (n : List Char) : List Char → Bool
  | [] => n.isEmpty
  | c :: t => n.isPrefixOf (c :: t) || containsSub n t

/-- Python `needle in hay` for strings. -/
def inStr (needle hay : String) : Bool :=
  containsSub needle.data hay.data

/-- Python `s.startswith(p)`. -/
def startsWithStr (s p : String) : Bool :=
  p.data.isPrefixOf s.data

/-- Python `str.strip()` (ASCII whitespace). -/
def stripStr (s : String) : String :=
  ⟨((s.data.dropWhile isWsChar).reverse.dropWhile isWsChar).reverse⟩

/-- Worker for `pySplit`: `skip` counts separator characters still to be
consumed after a separator match. -/
def splitOnGo (sep : List Char) : Nat → List Char → List Char → List (List Char)
  | _, [], acc => [acc.reverse]
  | Nat.succ k, _ :: t, acc => splitOnGo sep k t acc
  | 0, c :: t, acc =>
      if sep.isPrefixOf (c :: t) then
        acc.reverse :: splitOnGo sep (sep.length - 1) t []
      else
        splitOnGo sep 0 t (c :: acc)

/-- Python `s.split(sep)` for a non-empty separator: split on each
non-overlapping occurrence, left to right. -/
def pySplit (s sep : String) : List String :=
  (splitOnGo sep.data 0 s.data []).map String.mk

/-- Worker for `pyReplace`, with the same skip-counter scheme. -/
def replaceGo (old new : List Char) : Nat → List Char → List Char
  | _, [] => []
  | Nat.succ k, _ :: t => replaceGo old new k t
  | 0, c :: t =>
      if old.isPrefixOf (c :: t) then
        new ++ replaceGo old new (old.length - 1) t
      else
        c :: replaceGo old new 0 t

/-- Python `s.replace(old, new)` for non-empty `old`: replace each
non-overlapping occurrence, left to right. -/
def pyReplace (s old new : String) : String :=
  ⟨replaceGo old.data new.data 0 s.data⟩

/-- Python `s.lstrip('0')`: drop every leading `'0'`. -/
def lstripZeros (s : String) : String :=
  ⟨s.data.dropWhile (· = '0')⟩

/-- Decimal digit character. -/
def digitChar (n : Nat) : Char :=
  Char.ofNat (48 + n)

/-- Decimal representation of a natural number (fuel-driven so that it is
structurally recursive; the fuel `n + 1` always suffices). -/
def natDigits : Nat → Nat → List Char
  | 0, _ => []
  | fuel + 1, n => if n < 10 then [digitChar n] else natDigits fuel (n / 10) ++ [digitChar (n % 10)]

/-- Python `str(n)` for a non-negative integer. -/
def natStr (n : Nat) : String :=
  ⟨natDigits (n + 1) n⟩

/-- Lexicographic `≤` on character lists by code point — Python's string
comparison. -/
def listLe : List Char → List Char → Bool
  | [], _ => true
  | _ :: _, [] => false
  | a :: as, b :: bs =>
      if a.toNat < b.toNat then true
      else if b.toNat < a.toNat then false
      else listLe as bs

/-- Python `s <= t` on strings (lexicographic by code point). -/
def strLe (s t : String) : Bool :=
  listLe s.data t.data

/-! ### The time regular expressions of `extract_time` (lines 25-38)

`extract_time` first searches for
`(\d{1,2}:\d{2}\s?(AM|PM))\s*[-–—]\s*(\d{1,2}:\d{2}\s?(AM|PM))` with
`re.IGNORECASE`, falling back to `\d{1,2}:\d{2}\s?(AM|PM)`.  The models
below scan left to right (as `re.search` does) and implement the
alternation/greediness of the pattern; at a fixed start position the match
of the time sub-pattern is unique, so no general backtracking machinery is
needed (a two-digit hour forces `:` at the third character, a consumed
whitespace can never itself be `A`/`P`). -/

/-- Match `(AM|PM)` case-insensitively; return the matched characters (in
original case) and the rest. -/
def matchAmPm : List Char → Option (List Char × List Char)
  | c1 :: c2 :: rest =>
      if (c1.toLower = 'a' || c1.toLower = 'p') && c2.toLower = 'm' then
        some ([c1, c2], rest)
      else none
  | _ => none

/-- Match `:\d{2}\s?(AM|PM)` — the tail of a time after its hour digits. -/
def matchTimeTail : List Char → Option (List Char × List Char)
  | ':' :: m1 :: m2 :: rest =>
      if m1.isDigit && m2.isDigit then
        match rest with
        | w :: rest2 =>
            if isWsChar w then
              match matchAmPm rest2 with
              | some (ap, rest3) => some (':' :: m1 :: m2 :: w :: ap, rest3)
              | none => none
            else
              match matchAmPm rest with
              | some (ap, rest3) => some (':' :: m1 :: m2 :: ap, rest3)
              | none => none
        | [] => none
      else none
  | _ => none

/-- Match `\d{1,2}:\d{2}\s?(AM|PM)` at the head of the list (greedy
two-digit hour attempted first, as the regex engine does). -/
def matchTime : List Char → Option (List Char × List Char)
  | [] => none
  | d1 :: rest =>
      if d1.isDigit then
        match rest with
        | d2 :: rest2 =>
            if d2.isDigit then
              match matchTimeTail rest2 with
              | some (m, r) => some (d1 :: d2 :: m, r)
              | none =>
                  match matchTimeTail rest with
                  | some (m, r) => some (d1 :: m, r)
                  | none => none
            else
              match matchTimeTail rest with
              | some (m, r) => some (d1 :: m, r)
              | none => none
        | [] => none
      else none

/-- The dash alternatives `[-–—]` of the range pattern. -/
def isDash (c : Char) : Bool :=
  c = '-' || c = '–' || c = '—'

/-- Match the whole range pattern at the head of the list, returning the
two captured time strings. -/
def matchRangeAt (cs : List Char) : Option (List Char × List Char) :=
  match matchTime cs with
  | none => none
  | some (t1, r1) =>
      match r1.dropWhile isWsChar with
      | [] => none
      | d :: r2 =>
          if isDash d then
            match matchTime (r2.dropWhile isWsChar) with
            | some (t2, _) => some (t1, t2)
            | none => none
          else none

/-- `re.search` for the range pattern: try each start position, leftmost
first. -/
def searchRange : List Char → Option (List Char × List Char)
  | [] => none
  | c :: t =>
      match matchRangeAt (c :: t) with
      | some p => some p
      | none => searchRange t

/-- `re.search` for the single-time pattern. -/
def searchTime : List Char → Option (List Char)
  | [] => none
  | c :: t =>
      match matchTime (c :: t) with
      | some (m, _) => some m
      | none => searchTime t

/-- `extract_time(text)` (lines 25-38): returns `(start, end)` for a range
match, `(start, None)` for a single time, `(None, None)` otherwise. -/
def extractTime (text : String) : Option String × Option String :=
  match searchRange text.data with
  | some (s, e) => (some ⟨s⟩, some ⟨e⟩)
  | none =>
      match searchTime text.data with
      | some m => (some ⟨m⟩, none)
      | none => (none, none)

/-! ### `datetime.strptime`/`strftime` with format `%I:%M %p`

CPython compiles `%I:%M %p` to the case-insensitive regex
`(?P<I>1[0-2]|0[1-9]|[1-9]):(?P<M>[0-5]\d|\d)\s+(?P<p>AM|PM)`, matches it
at the start of the string and raises `ValueError` when the match fails or
does not consume the whole string.  `parseTime12` returns the time as
minutes after midnight, the value underlying all `datetime` comparisons
made by the program (the parsed dates agree on every other field). -/

/-- Digit value of a character. -/
def digitVal (c : Char) : Nat :=
  c.toNat - 48

/-- Tail `\s+(AM|PM)` plus the all-consumed check, converting to minutes
after midnight. -/
def finishTime12 (h minut : Nat) (cs : List Char) : Option Nat :=
  let ws := cs.takeWhile isWsChar
  if ws.isEmpty then none
  else
    match cs.drop ws.length with
    | [c1, c2] =>
        if (c1.toLower = 'a' || c1.toLower = 'p') && c2.toLower = 'm' then
          let pm := c1.toLower = 'p'
          let h24 := if pm then (if h = 12 then 12 else h + 12) else (if h = 12 then 0 else h)
          some (h24 * 60 + minut)
        else none
    | _ => none

/-- Minute alternation `[0-5]\d|\d` followed by the tail; the engine
backtracks from the two-digit to the one-digit branch if the tail fails. -/
def minuteTail12 (h : Nat) : List Char → Option Nat
  | m1 :: m2 :: rest =>
      if ('0' ≤ m1 && m1 ≤ '5') && m2.isDigit then
        match finishTime12 h (10 * digitVal m1 + digitVal m2) rest with
        | some v => some v
        | none => if m1.isDigit then finishTime12 h (digitVal m1) (m2 :: rest) else none
      else if m1.isDigit then finishTime12 h (digitVal m1) (m2 :: rest)
      else none
  | [m1] => if m1.isDigit then finishTime12 h (digitVal m1) [] else none
  | [] => none

/-- After the hour: `:` then the minute/tail. -/
def hourTail12 (h : Nat) : List Char → Option Nat
  | ':' :: ms => minuteTail12 h ms
  | _ => none

/-- Hour alternation `1[0-2]|0[1-9]|[1-9]`, again with backtracking from
the two-digit to the one-digit branch. -/
def parseTime12 (s : String) : Option Nat :=
  match s.data with
  | [] => none
  | c1 :: rest =>
      if c1 = '1' then
        match rest with
        | c2 :: rest2 =>
            if '0' ≤ c2 && c2 ≤ '2' then
              match hourTail12 (10 + digitVal c2) rest2 with
              | some v => some v
              | none => hourTail12 1 rest
            else hourTail12 1 rest
        | [] => none
      else if c1 = '0' then
        match rest with
        | c2 :: rest2 => if '1' ≤ c2 && c2 ≤ '9' then hourTail12 (digitVal c2) rest2 else none
        | [] => none
      else if '2' ≤ c1 && c1 ≤ '9' then hourTail12 (digitVal c1) rest
      else none

/-- Zero-padded two-digit rendering (for `%I` and `%M`). -/
def pad2 (n : Nat) : String :=
  if n < 10 then ⟨['0', digitChar n]⟩ else ⟨[digitChar (n / 10 % 10), digitChar (n % 10)]⟩

/-- `datetime.strftime('%I:%M %p')` on a time given as minutes after
midnight. -/
def fmtClock (m : Nat) : String :=
  let h24 := m / 60 % 24
  let mins := m % 60
  let h12 := if h24 % 12 = 0 then 12 else h24 % 12
  pad2 h12 ++ ":" ++ pad2 mins ++ " " ++ (if h24 < 12 then "AM" else "PM")

/-! ### `datetime.strptime` with format `%B %d`

Compiled by CPython to the case-insensitive regex
`(?P<B>January|February|...)\s+(?P<d>3[01]|[12]\d|0[1-9]|[1-9])` with the
same match-then-all-consumed discipline.  Nothing follows the day group in
the pattern, so its first succeeding alternative stands (no backtracking),
and any leftover characters make the parse fail. -/

/-- Month names (lower-cased) with their numbers. -/
def months : List (List Char × Nat) :=
  [("january".data, 1), ("february".data, 2), ("march".data, 3), ("april".data, 4),
   ("may".data, 5), ("june".data, 6), ("july".data, 7), ("august".data, 8),
   ("september".data, 9), ("october".data, 10), ("november".data, 11), ("december".data, 12)]

/-- Match a month name at the head of the (lower-cased) list. -/
def matchMonth (low : List Char) : Option (Nat × List Char) :=
  months.findSome? fun p =>
    if p.1.isPrefixOf low then some (p.2, low.drop p.1.length) else none

/-- The day alternation `3[01]|[12]\d|0[1-9]|[1-9]`, first success wins. -/
def matchDay : List Char → Option (Nat × List Char)
  | '3' :: '0' :: r => some (30, r)
  | '3' :: '1' :: r => some (31, r)
  | c :: d :: r =>
      if (c = '1' || c = '2') && d.isDigit then some (digitVal c * 10 + digitVal d, r)
      else if c = '0' && ('1' ≤ d && d ≤ '9') then some (digitVal d, r)
      else if '1' ≤ c && c ≤ '9' then some (digitVal c, d :: r)
      else none
  | [c] => if '1' ≤ c && c ≤ '9' then some (digitVal c, []) else none
  | [] => none

/-- Days per month in 1900 (the default year `strptime` fills in; the
resulting `datetime` construction validates the day against it, so e.g.
`February 29` raises even though the regex matches). -/
def daysInMonth : Nat → Nat
  | 2 => 28
  | 4 => 30
  | 6 => 30
  | 9 => 30
  | 11 => 30
  | _ => 31

/-- `datetime.strptime(s, '%B %d')`, reduced to the `(month, day)` pair
that determines all comparisons between the parsed dates. -/
def parseMonthDay (s : String) : Option (Nat × Nat) :=
  match matchMonth (s.data.map Char.toLower) with
  | none => none
  | some (mo, rest) =>
      let ws := rest.takeWhile isWsChar
      if ws.isEmpty then none
      else
        match matchDay (rest.drop ws.length) with
        | some (d, []) => if d ≤ daysInMonth mo then some (mo, d) else none
        | _ => none

/-! ### Day-header detection, title cleaning, keyword filter -/

/-- The weekday names of `day_pattern` (line 77), lower-cased. -/
def weekdays : List (List Char) :=
  ["monday".data, "tuesday".data, "wednesday".data, "thursday".data,
   "friday".data, "saturday".data, "sunday".data]

/-- Scan for a weekday name bounded by `\b` on both sides; `prevWord`
records whether the previous character was a word character. -/
def hasWeekdayFrom : Bool → List Char → Bool
  | _, [] => false
  | prevWord, c :: t =>
      (!prevWord &&
        weekdays.any fun w =>
          w.isPrefixOf (c :: t) &&
            (match (c :: t).drop w.length with
             | [] => true
             | d :: _ => !isWordChar d))
      || hasWeekdayFrom (isWordChar c) t

/-- `day_pattern.search(text)` (line 77): a weekday name with word
boundaries, case-insensitively. -/
def hasWeekday (s : String) : Bool :=
  hasWeekdayFrom false (s.data.map Char.toLower)

/-- `re.sub(r'^CP\d+\s+', '', title)`: strip a leading contest-code token. -/
def stripContestCode (cs : List Char) : List Char :=
  match cs with
  | 'C' :: 'P' :: rest =>
      let ds := rest.takeWhile Char.isDigit
      if ds.isEmpty then cs
      else
        let rest2 := rest.drop ds.length
        let ws := rest2.takeWhile isWsChar
        if ws.isEmpty then cs else rest2.drop ws.length
  | _ => cs

/-- `clean_session_title` (lines 40-45). -/
def cleanSessionTitle (title : String) : String :=
  stripStr ⟨stripContestCode title.data⟩

/-- The keyword list of `is_talk_session` (line 53). -/
def talkKeywords : List String :=
  ["Session", "IP", "CP", "SODA", "ALENEX", "SOSA", "Workshop", "Lecture"]

/-- `is_talk_session` (lines 47-54): case-insensitive substring match
against the keyword set. -/
def isTalkSession (sessionTitle : String) : Bool :=
  talkKeywords.any fun keyword => inStr (lowerStr keyword) (lowerStr sessionTitle)

/-! ### The document model

`fetch_main_page` looks at a table row only through: whether some `<td>`
carries a `colspan` attribute (and that cell's text), the list of `<td>`
cells, each cell's extracted text (`get_text(separator=' ', strip=True)`),
and the text/href of the first `<a href=...>` anchor inside a cell.  Rows
are therefore modelled as already-extracted data; `resolve` stands for
`lambda href: urljoin(url, href)` with the page URL baked in, since
`urllib.parse.urljoin` is an external collaborator. -/

/-- The first `<a>` with an `href` inside a cell: its stripped text and
raw `href` value. -/
structure Anchor where
  text : String
  href : String
deriving DecidableEq, Repr

/-- A `<td>` cell: its extracted text and its first href-carrying anchor,
if any. -/
structure Cell where
  text : String
  anchor : Option Anchor
deriving DecidableEq, Repr

/-- A table row.  `colspanned text` is a row in which `row.find('td',
colspan=True)` succeeds, with `text` that cell's extracted text (the code
then ignores everything else in the row); `cells tds` is any other row
with its list of `<td>` cells. -/
inductive Row where
  | colspanned (text : String)
  | cells (tds : List Cell)
deriving DecidableEq, Repr

/-- A parsed session record (the dict built at lines 123-129/167-173).
`start_time`/`end_time` are `Option` because `extract_time` can yield
`None` — and the two-cell fallback path can store such a `None`. -/
structure SessionRec where
  start_time : Option String
  end_time : Option String
  title : String
  link : String
  location : String
deriving DecidableEq, Repr

/-- Insertion-ordered association list: `sessions_by_day` (a
`defaultdict(list)` keyed by the day label, which is `None` before the
first day header). -/
abbrev DayMap := List (Option String × List SessionRec)

/-- `sessions_by_day[day].append(s)` — creates the key at the end on first
use, as `defaultdict` does. -/
def appendSession (m : DayMap) (d : Option String) (s : SessionRec) : DayMap :=
  match m with
  | [] => [(d, [s])]
  | (k, ss) :: t => if k = d then (k, ss ++ [s]) :: t else (k, ss) :: appendSession t d s

/-- Reading `sessions_by_day[day]` on a `defaultdict` inserts the key with
`[]` when absent (this happens at line 150 even for rows that are later
filtered out). -/
def touchKey (m : DayMap) (d : Option String) : DayMap :=
  match m with
  | [] => [(d, [])]
  | (k, ss) :: t => if k = d then (k, ss) :: t else (k, ss) :: touchKey t d

/-- Lookup in the association list (total: a `defaultdict` read never
fails). -/
def lookupKey (m : DayMap) (d : Option String) : List SessionRec :=
  match m with
  | [] => []
  | (k, ss) :: t => if k = d then ss else lookupKey t d

/-- The loop state of `fetch_main_page`: `current_day` (line 74) and the
Python *local variable* `time_text`, which is assigned only inside the
three-cell branch (line 98) but — thanks to Python's function-level
scoping — remains visible to later iterations; `none` models "never
assigned", whose use raises `UnboundLocalError` (modelled as the `Except`
error). -/
structure ParseState where
  currentDay : Option String := none
  timeText : Option String := none
  sessionsByDay : DayMap := []
deriving DecidableEq, Repr

/-- One iteration of the row loop (lines 80-176). -/
def processRow (resolve : String → String) (st : ParseState) : Row → Except Unit ParseState
  | .colspanned text =>
      .ok (if hasWeekday text then { st with currentDay := some text } else st)
  | .cells tds =>
      match tds with
      | [] => .ok st
      | [t0, t1, t2] =>
          let st1 := { st with timeText := some t0.text }
          match extractTime t0.text with
          | (none, _) => .ok st1
          | (some startTime, endTime) =>
              match t1.anchor with
              | none => .ok st1
              | some a =>
                  let title := cleanSessionTitle a.text
                  let link := resolve a.href
                  let location := t2.text
                  if isTalkSession title then
                    .ok { st1 with sessionsByDay :=
                      (appendSession st1.sessionsByDay st1.currentDay
                        ⟨some startTime, endTime, title, link, location⟩) }
                  else .ok st1
      | [t0, _t1] =>
          match st.currentDay with
          | none => .ok st
          | some _ =>
              let tl : String × String :=
                match t0.anchor with
                | some a => (cleanSessionTitle a.text, resolve a.href)
                | none => (t0.text, "#")
              let sbd := touchKey st.sessionsByDay st.currentDay
              match (lookupKey sbd st.currentDay).getLast? with
              | some lastS =>
                  if isTalkSession tl.1 then
                    .ok { st with sessionsByDay :=
                      (appendSession sbd st.currentDay
                        ⟨lastS.start_time, lastS.end_time, tl.1, tl.2, lastS.location⟩) }
                  else .ok { st with sessionsByDay := sbd }
              | none =>
                  match st.timeText with
                  | none => .error ()
                  | some tt =>
                      let se := extractTime tt
                      if isTalkSession tl.1 then
                        .ok { st with sessionsByDay :=
                          (appendSession sbd st.currentDay ⟨se.1, se.2, tl.1, tl.2, ""⟩) }
                      else .ok { st with sessionsByDay := sbd }
      | _ => .ok st

/-- `foldM` over `Except`, written out so that it unfolds structurally. -/
def exFoldl {σ α : Type} (f : σ → α → Except Unit σ) : σ → List α → Except Unit σ
  | s, [] => .ok s
  | s, a :: t =>
      match f s a with
      | .error e => .error e
      | .ok s' => exFoldl f s' t

/-- `grouped_sessions`: day → start-time → ordered session list. -/
abbrev Grouped := List (Option String × List (Option String × List SessionRec))

/-- `grouped_sessions[day][start_time].append(s)` on the nested
insertion-ordered association list. -/
def appendByStart (inner : List (Option String × List SessionRec)) (s : SessionRec) :
    List (Option String × List SessionRec) :=
  match inner with
  | [] => [(s.start_time, [s])]
  | (st, ss) :: t =>
      if st = s.start_time then (st, ss ++ [s]) :: t else (st, ss) :: appendByStart t s

/-- Insert one session into the grouped structure under its day. -/
def appendGrouped (g : Grouped) (d : Option String) (s : SessionRec) : Grouped :=
  match g with
  | [] => [(d, [(s.start_time, [s])])]
  | (k, inner) :: t =>
      if k = d then (k, appendByStart inner s) :: t else (k, inner) :: appendGrouped t d s

/-- The grouping pass (lines 179-182).  Days whose list stayed empty (a
key only ever created by the line-150 `defaultdict` read) contribute
nothing, exactly as in the Python loop. -/
def groupSessions (sbd : DayMap) : Grouped :=
  sbd.foldl (fun g p => p.2.foldl (fun g' s => appendGrouped g' p.1 s) g) []

/-- The scanning-plus-grouping core of `fetch_main_page` (lines 73-190),
over an already-fetched document given as a row list.  `resolve` is
`lambda href: urljoin(url, href)`.  The `Except` error is Python's
`UnboundLocalError` escaping the function. -/
def parseMainTable (resolve : String → String) (rows : List Row) : Except Unit Grouped :=
  match exFoldl (processRow resolve) {} rows with
  | .error e => .error e
  | .ok st => .ok (groupSessions st.sessionsByDay)

/-! ### DetailFetcher (`fetch_session_details`, `fetch_all_session_details`) -/

/-- A talk entry (`{"title": ..., "link": ...}`, line 214). -/
structure TalkT where
  title : String
  link : String
deriving DecidableEq, Repr

/-- What `fetch_session_details` reads out of one `<dt>` element of a
detail page: the text of its first `<strong>` (if any) and the `href` of
its first anchor (if any). -/
structure DtEntry where
  strongText : Option String
  anchorHref : Option String
deriving DecidableEq, Repr

/-- A fetched session-detail page, reduced to its `<dt>` entries in
document order. -/
structure DetailPage where
  dts : List DtEntry
deriving DecidableEq, Repr

/-- The fixed session-detail URL prefix of line 195. -/
def sessUrlStart : String :=
  "https://meetings.siam.org/sess"

/-- `fetch_session_details(session_url, session_title)` (lines 192-219).
`fetch` is the external HTTP transport (`none` = request exception after
retries) and `resolve` is `urljoin` with the first argument explicit.  The
second component of the result counts the network requests issued, so
"no network call" is part of the returned value. -/
def fetchSessionDetails (fetch : String → Option DetailPage) (resolve : String → String → String)
    (sessionUrl _sessionTitle : String) : List TalkT × Nat :=
  if !startsWithStr sessionUrl sessUrlStart then
    ([], 0)
  else
    match fetch sessionUrl with
    | none => ([], 1)
    | some page =>
        (page.dts.map fun dt =>
          ⟨dt.strongText.getD "Unknown Title",
           match dt.anchorHref with
           | some h => resolve sessionUrl h
           | none => "#"⟩, 1)

/-- All-or-nothing parse of a list of end-time strings — the list
comprehension inside the `try` block at line 234: the first `ValueError`
aborts the whole conversion. -/
def parseEndTimes : List String → Option (List Nat)
  | [] => some []
  | e :: t =>
      match parseTime12 e with
      | none => none
      | some v =>
          match parseEndTimes t with
          | none => none
          | some vs => some (v :: vs)

/-- The display time-range computation of `fetch_all_session_details`
(lines 229-242) for one `(day, start_time)` group whose key is a string.
Python's `max` over the parsed `datetime`s compares exactly their
minutes-after-midnight. -/
def timeRangeLabel (startTime : String) (sessions : List SessionRec) : String :=
  let endTimes := sessions.filterMap (·.end_time)
  if endTimes.isEmpty then startTime
  else
    match parseEndTimes endTimes with
    | none => startTime
    | some mins => startTime ++ " - " ++ lstripZeros (fmtClock (mins.foldl Nat.max 0))

/-! ### ScheduleRenderer (`generate_html`, lines 264-361, and
`determine_max_concurrent_sessions`, lines 363-372)

The renderer consumes `all_talks_by_day`: day → time-range → list of
`{"title", "link", "talks"}` dicts, modelled as insertion-ordered
association lists (Python dict keys are unique and iterate in insertion
order).  Output is the exact byte sequence of `html_content`; literal
braces from the CSS block are written `\x7b`/`\x7d`.  `today` is the value
of `datetime.now().isoformat()[:10]` — an ambient input of the function,
made explicit.  A `ValueError`/`IndexError` escaping from a sort key
lambda is the `Except` error. -/

/-- A session entry of `all_talks_by_day` (lines 252-256). -/
structure SessionT where
  title : String
  link : String
  talks : List TalkT
deriving DecidableEq, Repr

/-- The merged structure fed to the renderer. -/
abbrev MergedData := List (String × List (String × List SessionT))

/-- `determine_max_concurrent_sessions` (lines 363-372). -/
def determineMaxConcurrentSessions (data : MergedData) : Nat :=
  data.foldl (fun m p => p.2.foldl (fun m' q => Nat.max m' q.2.length) m) 0

/-- The sort key of line 330: `d['title'].replace('ALENEX','Z')`. -/
def sKey (s : SessionT) : String :=
  pyReplace s.title "ALENEX" "Z"

/-- The ordering the multi-session sort uses: comparison of the
`replace`d titles.  Python's `sorted` is a stable sort by this key; a
stable sort's output is unique, so `List.insertionSort` with the
non-strict key order computes it. -/
def sessionLe (a b : SessionT) : Prop :=
  strLe (sKey a) (sKey b) = true

instance : DecidableRel sessionLe := fun _ _ => instDecidableEqBool _ _

/-- `sorted(sessions, key=lambda d: d['title'].replace('ALENEX','Z'))`
(line 330). -/
def sortSessions (l : List SessionT) : List SessionT :=
  List.insertionSort sessionLe l

/-- `f'<a href="{talk["link"]}">{talk["title"]}</a><br>'` (lines 318/339). -/
def talkLine (t : TalkT) : String :=
  "<a href=\"" ++ t.link ++ "\">" ++ t.title ++ "</a><br>"

/-- The `<strong>` heading every session cell starts with (lines 314/337). -/
def strongLine (s : SessionT) : String :=
  "<strong class=\"session-title\"><a href=\"" ++ s.link ++ "\">" ++ s.title ++
    "</a></strong><br>"

/-- `session_cell` of the single-session branch (lines 314-318): the
time range in `<em>` when there are no talks, the talk lines otherwise. -/
def singleCell (timeRange : String) (s : SessionT) : String :=
  strongLine s ++ (if s.talks.isEmpty then "<em>" ++ timeRange ++ "</em><br>" else "") ++
    String.join (s.talks.map talkLine)

/-- The whole single-session row (lines 320-324). -/
def singleSessionRow (maxC : Nat) (timeRange : String) (s : SessionT) : String :=
  "\n                    <tr>\n                        <td colspan=\"" ++ natStr maxC ++
    "\">" ++ singleCell timeRange s ++ "</td>\n                    </tr>\n                "

/-- `session_cell` of the multi-session branch (lines 337-339: no time
range line). -/
def multiCell (s : SessionT) : String :=
  strongLine s ++ String.join (s.talks.map talkLine)

/-- One `<td>` of the multi-session row (lines 340-344). -/
def sessionTd (s : SessionT) : String :=
  "\n                            <td>\n                                " ++ multiCell s ++
    "\n                            </td>\n                        "

/-- The empty padding `<td>` (lines 347-349). -/
def emptyTd : String :=
  "\n                            <td></td>\n                        "

/-- The cells emitted by `for i in range(max_concurrent_sessions)`
(lines 331-349), given the already sorted session list. -/
def multiCells (maxC : Nat) (sorted : List SessionT) : List String :=
  (List.range maxC).map fun i =>
    match sorted.get? i with
    | some s => sessionTd s
    | none => emptyTd

/-- The whole multi-session row (lines 327-352), including the sort of
line 330. -/
def multiRow (maxC : Nat) (sessions : List SessionT) : String :=
  "\n                    <tr>\n                " ++
    String.join (multiCells maxC (sortSessions sessions)) ++
    "\n                    </tr>\n                "

/-- Row emission for one time-range group (lines 307-352). -/
def timeRangeRow (maxC : Nat) (timeRange : String) (sessions : List SessionT) : String :=
  match sessions with
  | [s] => singleSessionRow maxC timeRange s
  | _ => multiRow maxC sessions

/-- The day-header row (lines 298-302). -/
def dayHeaderRow (maxC : Nat) (day : String) : String :=
  "\n            <tr>\n                <th class=\"day-header\" colspan=\"" ++ natStr maxC ++
    "\">" ++ day ++ "</th>\n            </tr>\n        "

/-- The fixed page header with the interpolated heading (lines 267-286). -/
def htmlHeader (mainHeading : String) : String :=
  "\n    <html>\n    <head>\n        <meta http-equiv=\"Content-Type\" content=\"text/html; charset=utf-8\">\n        <title>" ++
    mainHeading ++
    "</title>\n        <style>\n            table \x7b width: 100%; border-collapse: collapse; \x7d\n            th, td \x7b border: 1px solid #ccc; padding: 10px; vertical-align: top; \x7d\n            th \x7b background-color: #f4f4f4; text-align: center; \x7d\n            a \x7b text-decoration: none; color: black; \x7d\n            .day-header \x7b background-color: #d9edf7; font-size: 1.2em; \x7d\n            .session-title \x7b font-weight: bold; \x7d\n            a:link \x7b\n              color: black;\n            \x7d\n        </style>\n    </head>\n    <body>\n        <h1>" ++
    mainHeading ++ "</h1>\n    "

/-- The generation-date line (line 289). -/
def generatedLine (url today : String) : String :=
  "<p>Generated " ++ today ++ " from the official program (<a href=\"" ++ url ++
    "\">link</a>)</p>"

/-- The table opening added at lines 290-293 (note the four trailing
spaces after the opening `'''`). -/
def tableOpen : String :=
  "    \n        <table>\n            <tbody>\n    "

/-- The closing block (lines 355-360). -/
def tableClose : String :=
  "\n            </tbody>\n        </table>\n    </body>\n    </html>\n    "

/-- `exMap` — `mapM` over `Except`, written out structurally. -/
def exMap {α β : Type} (f : α → Except Unit β) : List α → Except Unit (List β)
  | [] => .ok []
  | a :: t =>
      match f a with
      | .error e => .error e
      | .ok b =>
          match exMap f t with
          | .error e => .error e
          | .ok bs => .ok (b :: bs)

/-- The day sort key of line 296:
`datetime.strptime(d.split(', ')[1], '%B %d')`; the `[1]` raises
`IndexError` when the label has no `', '`, the parse raises `ValueError`
on failure. -/
def dayKey (d : String) : Except Unit (Nat × Nat) :=
  match pySplit d ", " with
  | _ :: p1 :: _ =>
      match parseMonthDay p1 with
      | some md => .ok md
      | none => .error ()
  | _ => .error ()

/-- The time-range sort key of line 304:
`datetime.strptime(x.split(' - ')[0], '%I:%M %p')` (index 0 always
exists). -/
def timeKey (x : String) : Except Unit Nat :=
  match pySplit x " - " with
  | p0 :: _ =>
      match parseTime12 p0 with
      | some v => .ok v
      | none => .error ()
  | [] => .error ()

/-- Annotate a day entry with its sort key. -/
def keyDay (p : String × List (String × List SessionT)) :
    Except Unit ((Nat × Nat) × String × List (String × List SessionT)) :=
  match dayKey p.1 with
  | .error e => .error e
  | .ok k => .ok (k, p.1, p.2)

/-- Annotate a time-range entry with its sort key. -/
def keyTr (p : String × List SessionT) : Except Unit (Nat × String × List SessionT) :=
  match timeKey p.1 with
  | .error e => .error e
  | .ok k => .ok (k, p.1, p.2)

/-- Lexicographic order on the `(month, day)` keys — how the parsed
`datetime`s compare. -/
def dayLe (a b : (Nat × Nat) × String × List (String × List SessionT)) : Prop :=
  (a.1.1 < b.1.1 || (a.1.1 = b.1.1 && a.1.2 ≤ b.1.2)) = true

instance : DecidableRel dayLe := fun _ _ => instDecidableEqBool _ _

/-- Order on the minute keys of time ranges. -/
def trLe (a b : Nat × String × List SessionT) : Prop :=
  a.1 ≤ b.1

instance : DecidableRel trLe := fun a b => Nat.decLe a.1 b.1

/-- The body emitted for one (key-annotated) day: header row plus its
time-range rows in sorted order (lines 297-352). -/
def renderDayBody (maxC : Nat) (p : (Nat × Nat) × String × List (String × List SessionT)) :
    Except Unit String :=
  match exMap keyTr p.2.2 with
  | .error e => .error e
  | .ok keyed =>
      .ok (dayHeaderRow maxC p.2.1 ++
        String.join ((List.insertionSort trLe keyed).map fun q => timeRangeRow maxC q.2.1 q.2.2))

/-- `generate_html(all_talks_by_day, main_heading, max_concurrent_sessions,
url)` (lines 264-361).  `today` is `datetime.now().isoformat()[:10]`.
Both sorts are stable sorts by their key (Python's `sorted`); an
exception from a key lambda propagates out of the function. -/
def generateHtml (data : MergedData) (mainHeading : String) (maxC : Nat)
    (url : Option String) (today : String) : Except Unit String :=
  match exMap keyDay data with
  | .error e => .error e
  | .ok keyedDays =>
      match exMap (renderDayBody maxC) (List.insertionSort dayLe keyedDays) with
      | .error e => .error e
      | .ok bodies =>
          .ok (htmlHeader mainHeading ++
            (match url with
             | some u => generatedLine u today
             | none => "") ++
            tableOpen ++ String.join bodies ++ tableClose)

/-! ### Relations used to state render determinism -/

instance {ε α : Type} [DecidableEq ε] [DecidableEq α] : DecidableEq (Except ε α) := fun a b =>
  match a, b with
  | .error e, .error f =>
      if h : e = f then .isTrue (by rw [h]) else .isFalse (by intro hc; cases hc; exact h rfl)
  | .ok x, .ok y =>
      if h : x = y then .isTrue (by rw [h]) else .isFalse (by intro hc; cases hc; exact h rfl)
  | .error _, .ok _ => .isFalse (by intro hc; cases hc)
  | .ok _, .error _ => .isFalse (by intro hc; cases hc)

/-- Relate two `Except` computations: both fail, or both succeed with
`S`-related values. -/
def ExceptRel {β γ : Type} (S : β → γ → Prop) : Except Unit β → Except Unit γ → Prop
  | .error _, .error _ => True
  | .ok x, .ok y => S x y
  | _, _ => False

/-- Two time-range tables with the same time-range labels in the same
dictionary order, whose session lists are permutations of each other, the
left one having pairwise distinct sort keys. -/
def GroupsPermN (g1 g2 : List (String × List SessionT)) : Prop :=
  List.Forall₂ (fun p q => p.1 = q.1 ∧ p.2.Perm q.2 ∧ (p.2.map sKey).Nodup) g1 g2

/-- Two merged structures with the same day labels in the same dictionary
order whose groups are related by `GroupsPermN`. -/
def MergedRel (d1 d2 : MergedData) : Prop :=
  List.Forall₂ (fun a b => a.1 = b.1 ∧ GroupsPermN a.2 b.2) d1 d2

/-! ### Concrete inputs used by counterexamples and witnesses -/

/-- A Monday header followed directly by a two-cell continuation row: no
three-cell row has ever run, so Python's `time_text` is unbound. -/
def docNoSlot : List Row :=
  [.colspanned "Monday, January 20",
   .cells [⟨"", some ⟨"Scheduling Session", "s.html"⟩⟩, ⟨"", none⟩]]

/-- A Monday header, a three-cell row whose first cell has no parsable
time (the row is skipped but assigns `time_text`), then a two-cell row. -/
def docStaleTime : List Row :=
  [.colspanned "Monday, January 20",
   .cells [⟨"TBD", none⟩, ⟨"", none⟩, ⟨"", none⟩],
   .cells [⟨"", some ⟨"Scheduling Session", "s.html"⟩⟩, ⟨"", none⟩]]

/-- A Monday header, a normal linked slot-start row, then a link-less
two-cell row whose raw cell text is `"CP3 Algorithms"`. -/
def docRawCp : List Row :=
  [.colspanned "Monday, January 20",
   .cells [⟨"9:00 AM - 10:30 AM", none⟩,
           ⟨"", some ⟨"CP1 Graph Algorithms Session", "g.html"⟩⟩,
           ⟨"Ballroom A", none⟩],
   .cells [⟨"CP3 Algorithms", none⟩, ⟨"", none⟩]]

/-- The session record the raw-text fallback of `docRawCp` admits. -/
def rawCpSession : SessionRec :=
  ⟨some "9:00 AM", some "10:30 AM", "CP3 Algorithms", "#", "Ballroom A"⟩

/-- The linked session of `docRawCp`. -/
def graphSession : SessionRec :=
  ⟨some "9:00 AM", some "10:30 AM", "Graph Algorithms Session", "g.html", "Ballroom A"⟩

/-- A session whose title starts with the distinguished keyword. -/
def alenexSession : SessionT := ⟨"ALENEX Session", "la", []⟩

/-- A session whose title does not contain `ALENEX` but whose title is
identical to the remapped sort key of `alenexSession`. -/
def zSession : SessionT := ⟨"Z Session", "lz", []⟩

/-- A session whose lowercase-initial title compares above `"Z"`. -/
def lowercaseSession : SessionT := ⟨"a session", "ls", []⟩

/-- One-day merged structure holding one group with the two key-colliding
sessions in a given order. -/
def tieData (ss : List SessionT) : MergedData :=
  [("Monday, January 20", [("9:00 AM", ss)])]

/-- Two distinct-key sessions for the determinism witness. -/
def aSession : SessionT := ⟨"Approximation Session", "lap", []⟩

/-- Second distinct-key session for the determinism witness. -/
def bSession : SessionT := ⟨"Broadcast Session", "lb", []⟩

/-- Merged structure used by the width (C6) statements: global maximum
concurrency 2, one single-session group. -/
def widthData : MergedData :=
  [("Monday, January 20",
    [("9:00 AM", [aSession, bSession]),
     ("5:00 PM", [zSession])])]

/-! ## Theorems

### `listLe`/`strLe` is a total preorder with antisymmetry -/

theorem char_eq_of_toNat_eq {a b : Char} (h : a.toNat = b.toNat) : a = b :=
  Char.ext (UInt32.ext h)

theorem listLe_total : ∀ xs ys : List Char, listLe xs ys = true ∨ listLe ys xs = true
  | [], _ => Or.inl rfl
  | _ :: _, [] => Or.inr rfl
  | a :: as, b :: bs => by
      by_cases hab : a.toNat < b.toNat
      · exact Or.inl (by simp [listLe, hab])
      · by_cases hba : b.toNat < a.toNat
        · exact Or.inr (by simp [listLe, hba])
        · cases listLe_total as bs with
          | inl h => exact Or.inl (by simp [listLe, hab, hba, h])
          | inr h => exact Or.inr (by simp [listLe, hab, hba, h])

theorem listLe_trans : ∀ xs ys zs : List Char,
    listLe xs ys = true → listLe ys zs = true → listLe xs zs = true
  | [], _, _, _, _ => rfl
  | a :: as, [], _, h1, _ => by simp [listLe] at h1
  | _ :: _, _ :: _, [], _, h2 => by simp [listLe] at h2
  | a :: as, b :: bs, c :: cs, h1, h2 => by
      simp only [listLe] at h1 h2 ⊢
      by_cases hab : a.toNat < b.toNat <;> by_cases hba : b.toNat < a.toNat <;>
        by_cases hbc : b.toNat < c.toNat <;> by_cases hcb : c.toNat < b.toNat <;>
          simp [hab, hba, hbc, hcb] at h1 h2 ⊢ <;>
            first
              | omega
              | (constructor <;> omega)
              | (exact listLe_trans as bs cs h1 h2)
              | (exact Or.inr ⟨by omega, listLe_trans as bs cs h1 h2⟩)

theorem listLe_antisymm : ∀ xs ys : List Char,
    listLe xs ys = true → listLe ys xs = true → xs = ys
  | [], [], _, _ => rfl
  | [], _ :: _, _, h2 => by simp [listLe] at h2
  | _ :: _, [], h1, _ => by simp [listLe] at h1
  | a :: as, b :: bs, h1, h2 => by
      simp only [listLe] at h1 h2
      by_cases hab : a.toNat < b.toNat <;> by_cases hba : b.toNat < a.toNat <;>
        simp [hab, hba] at h1 h2
      · omega
      · have hch : a = b := char_eq_of_toNat_eq (by omega)
        rw [hch, listLe_antisymm as bs h1 h2]

theorem strLe_total (s t : String) : strLe s t = true ∨ strLe t s = true :=
  listLe_total s.data t.data

theorem strLe_trans {s t u : String} (h1 : strLe s t = true) (h2 : strLe t u = true) :
    strLe s u = true :=
  listLe_trans s.data t.data u.data h1 h2

theorem strLe_antisymm {s t : String} (h1 : strLe s t = true) (h2 : strLe t s = true) :
    s = t := by
  cases s with
  | mk ds =>
      cases t with
      | mk dt => exact congrArg String.mk (listLe_antisymm ds dt h1 h2)

/-! ### The multi-session sort: sortedness, permutation, uniqueness -/

theorem sessionLe_total (a b : SessionT) : sessionLe a b ∨ sessionLe b a :=
  strLe_total (sKey a) (sKey b)

theorem sessionLe_trans {a b c : SessionT} (h1 : sessionLe a b) (h2 : sessionLe b c) :
    sessionLe a c :=
  strLe_trans h1 h2

theorem sKey_eq_of_sessionLe_antisymm {a b : SessionT} (h1 : sessionLe a b)
    (h2 : sessionLe b a) : sKey a = sKey b :=
  strLe_antisymm h1 h2

theorem sortSessions_perm (l : List SessionT) : (sortSessions l).Perm l :=
  List.perm_insertionSort sessionLe l

theorem sortSessions_sorted (l : List SessionT) : List.Sorted sessionLe (sortSessions l) := by
  haveI : IsTotal SessionT sessionLe := ⟨sessionLe_total⟩
  haveI : IsTrans SessionT sessionLe := ⟨fun _ _ _ => sessionLe_trans⟩
  exact List.sorted_insertionSort sessionLe l

/-- Two sorted lists that are permutations of each other and whose sort
keys are pairwise distinct are equal. -/
theorem sorted_eq_of_perm_of_nodup_keys : ∀ {l1 l2 : List SessionT}, l1.Perm l2 →
    List.Sorted sessionLe l1 → List.Sorted sessionLe l2 → (l1.map sKey).Nodup → l1 = l2
  | [], l2, hp, _, _, _ => (hp.nil_eq).symm ▸ rfl
  | a :: t1, l2, hp, hs1, hs2, hn => by
      cases l2 with
      | nil => exact absurd hp.symm.nil_eq (by simp)
      | cons b t2 =>
          rw [List.sorted_cons] at hs1 hs2
          rw [List.map_cons, List.nodup_cons] at hn
          have hab : a = b := by
            have ha2 : a ∈ b :: t2 := hp.subset (List.mem_cons_self a t1)
            rcases List.mem_cons.mp ha2 with h | h
            · exact h
            · have hb1 : b ∈ a :: t1 := hp.symm.subset (List.mem_cons_self b t2)
              rcases List.mem_cons.mp hb1 with h' | h'
              · exact h'.symm
              · have hkey : sKey b = sKey a :=
                  sKey_eq_of_sessionLe_antisymm (hs2.1 a h) (hs1.1 b h')
                exact absurd (hkey ▸ List.mem_map_of_mem sKey h') hn.1
          subst hab
          have : t1 = t2 :=
            sorted_eq_of_perm_of_nodup_keys hp.cons_inv hs1.2 hs2.2 hn.2
          rw [this]

/-- With pairwise distinct sort keys, the stably sorted session list does
not depend on the input order. -/
theorem sortSessions_eq_of_perm {l1 l2 : List SessionT} (hp : l1.Perm l2)
    (hn : (l1.map sKey).Nodup) : sortSessions l1 = sortSessions l2 := by
  apply sorted_eq_of_perm_of_nodup_keys
  · exact (sortSessions_perm l1).trans (hp.trans (sortSessions_perm l2).symm)
  · exact sortSessions_sorted l1
  · exact sortSessions_sorted l2
  · exact (((sortSessions_perm l1).map sKey).nodup_iff).mpr hn

/-! ### Congruence of the renderer under within-group permutation -/

theorem timeRangeRow_eq_of_perm {ss1 ss2 : List SessionT} (hp : ss1.Perm ss2)
    (hn : (ss1.map sKey).Nodup) (maxC : Nat) (tr : String) :
    timeRangeRow maxC tr ss1 = timeRangeRow maxC tr ss2 := by
  cases ss1 with
  | nil => rw [← hp.nil_eq]
  | cons a t =>
      cases t with
      | nil =>
          rw [List.perm_singleton.mp hp.symm]
      | cons b u =>
          have hlen : ss2.length = u.length + 2 := by
            have := hp.length_eq
            simpa using this.symm
          cases ss2 with
          | nil => simp at hlen
          | cons x v =>
              cases v with
              | nil => simp at hlen
              | cons y w =>
                  show multiRow maxC (a :: b :: u) = multiRow maxC (x :: y :: w)
                  unfold multiRow
                  rw [sortSessions_eq_of_perm hp hn]

theorem orderedInsert_forall₂ {α : Type} {R : α → α → Prop} (r : α → α → Prop) [DecidableRel r]
    (hr : ∀ a b a' b', R a a' → R b b' → (r a b ↔ r a' b')) :
    ∀ {a a' : α} {l l' : List α}, R a a' → List.Forall₂ R l l' →
      List.Forall₂ R (l.orderedInsert r a) (l'.orderedInsert r a')
  | a, a', _, _, ha, .nil => .cons ha .nil
  | a, a', _, _, ha, .cons hbb hrest => by
      rename_i b b' l l'
      by_cases h : r a b
      · rw [List.orderedInsert, if_pos h, List.orderedInsert,
          if_pos ((hr a b a' b' ha hbb).mp h)]
        exact .cons ha (.cons hbb hrest)
      · rw [List.orderedInsert, if_neg h, List.orderedInsert,
          if_neg (fun hc => h ((hr a b a' b' ha hbb).mpr hc))]
        exact .cons hbb (orderedInsert_forall₂ r hr ha hrest)

theorem insertionSort_forall₂ {α : Type} {R : α → α → Prop} (r : α → α → Prop) [DecidableRel r]
    (hr : ∀ a b a' b', R a a' → R b b' → (r a b ↔ r a' b')) :
    ∀ {l l' : List α}, List.Forall₂ R l l' →
      List.Forall₂ R (List.insertionSort r l) (List.insertionSort r l')
  | _, _, .nil => .nil
  | _, _, .cons ha hrest =>
      orderedInsert_forall₂ r hr ha (insertionSort_forall₂ r hr hrest)

theorem map_eq_of_forall₂ {α β γ : Type} {R : α → β → Prop} {f : α → γ} {g : β → γ}
    (hf : ∀ x y, R x y → f x = g y) :
    ∀ {l1 : List α} {l2 : List β}, List.Forall₂ R l1 l2 → l1.map f = l2.map g
  | _, _, .nil => rfl
  | _, _, .cons h hrest => by
      rename_i x y l1 l2
      simp only [List.map_cons, hf x y h, map_eq_of_forall₂ hf hrest]

theorem exMap_rel {α β γ : Type} {R : α → α → Prop} {S : β → γ → Prop}
    {f : α → Except Unit β} {g : α → Except Unit γ}
    (hf : ∀ x y, R x y → ExceptRel S (f x) (g y)) :
    ∀ {l1 l2 : List α}, List.Forall₂ R l1 l2 →
      ExceptRel (List.Forall₂ S) (exMap f l1) (exMap g l2)
  | _, _, .nil => by simp [exMap, ExceptRel]
  | _, _, .cons h hrest => by
      rename_i x y l1 l2
      have hx := hf x y h
      have ht := exMap_rel hf hrest
      simp only [exMap]
      cases hfx : f x with
      | error e =>
          cases hgy : g y with
          | error e' => simp [ExceptRel]
          | ok c => rw [hfx, hgy] at hx; simp [ExceptRel] at hx
      | ok b =>
          cases hgy : g y with
          | error e' => rw [hfx, hgy] at hx; simp [ExceptRel] at hx
          | ok c =>
              rw [hfx, hgy] at hx
              cases hmx : exMap f l1 with
              | error e =>
                  cases hmy : exMap g l2 with
                  | error e' => simp [ExceptRel]
                  | ok cs => rw [hmx, hmy] at ht; simp [ExceptRel] at ht
              | ok bs =>
                  cases hmy : exMap g l2 with
                  | error e' => rw [hmx, hmy] at ht; simp [ExceptRel] at ht
                  | ok cs =>
                      rw [hmx, hmy] at ht
                      simp only [ExceptRel] at hx ht ⊢
                      exact .cons hx ht

theorem exMap_eq_of_rel {α β : Type} {R : α → α → Prop} {f : α → Except Unit β}
    (hf : ∀ x y, R x y → f x = f y) :
    ∀ {l1 l2 : List α}, List.Forall₂ R l1 l2 → exMap f l1 = exMap f l2
  | _, _, .nil => rfl
  | _, _, .cons h hrest => by
      rename_i x y l1 l2
      simp only [exMap, hf x y h, exMap_eq_of_rel hf hrest]

theorem keyDay_rel (x y : String × List (String × List SessionT))
    (h : x.1 = y.1 ∧ GroupsPermN x.2 y.2) :
    ExceptRel (fun k k' => k.1 = k'.1 ∧ k.2.1 = k'.2.1 ∧ GroupsPermN k.2.2 k'.2.2)
      (keyDay x) (keyDay y) := by
  obtain ⟨h1, h2⟩ := h
  unfold keyDay
  rw [h1]
  cases dayKey y.1 with
  | error e => simp [ExceptRel]
  | ok k => exact ⟨rfl, rfl, h2⟩

theorem keyTr_rel (p q : String × List SessionT)
    (h : p.1 = q.1 ∧ p.2.Perm q.2 ∧ (p.2.map sKey).Nodup) :
    ExceptRel (fun z w => z.1 = w.1 ∧ z.2.1 = w.2.1 ∧ z.2.2.Perm w.2.2 ∧
        (z.2.2.map sKey).Nodup)
      (keyTr p) (keyTr q) := by
  obtain ⟨h1, h2, h3⟩ := h
  unfold keyTr
  rw [h1]
  cases timeKey q.1 with
  | error e => simp [ExceptRel]
  | ok k => exact ⟨rfl, rfl, h2, h3⟩

theorem renderDayBody_eq (maxC : Nat)
    (x y : (Nat × Nat) × String × List (String × List SessionT))
    (h : x.1 = y.1 ∧ x.2.1 = y.2.1 ∧ GroupsPermN x.2.2 y.2.2) :
    renderDayBody maxC x = renderDayBody maxC y := by
  obtain ⟨_, hl, hg⟩ := h
  unfold renderDayBody
  have h1 := exMap_rel (fun p q hpq => keyTr_rel p q hpq) hg
  cases hmx : exMap keyTr x.2.2 with
  | error e =>
      cases hmy : exMap keyTr y.2.2 with
      | error e' => cases e; cases e'; rfl
      | ok ks => rw [hmx, hmy] at h1; simp [ExceptRel] at h1
  | ok keyed =>
      cases hmy : exMap keyTr y.2.2 with
      | error e' => rw [hmx, hmy] at h1; simp [ExceptRel] at h1
      | ok keyed' =>
          rw [hmx, hmy] at h1
          simp only [ExceptRel] at h1
          have hsorted := insertionSort_forall₂ trLe
            (fun a b a' b' ha hb => by
              unfold trLe; rw [ha.1, hb.1]) h1
          have hmap := map_eq_of_forall₂
            (f := fun q => timeRangeRow maxC q.2.1 q.2.2)
            (g := fun q => timeRangeRow maxC q.2.1 q.2.2)
            (fun z w hzw => by
              obtain ⟨_, hzl, hzp, hzn⟩ := hzw
              show timeRangeRow maxC z.2.1 z.2.2 = timeRangeRow maxC w.2.1 w.2.2
              rw [hzl]
              exact timeRangeRow_eq_of_perm hzp hzn maxC w.2.1) hsorted
          show Except.ok (dayHeaderRow maxC x.2.1 ++
              String.join ((List.insertionSort trLe keyed).map
                fun q => timeRangeRow maxC q.2.1 q.2.2)) =
            Except.ok (dayHeaderRow maxC y.2.1 ++
              String.join ((List.insertionSort trLe keyed').map
                fun q => timeRangeRow maxC q.2.1 q.2.2))
          rw [hl, hmap]

/-- Claim C1 (amended): given the same heading, `maxConcurrency`, source
URL and generation date, two merged structures that agree on day labels
and time-range labels (in dictionary order) and whose per-group session
lists are permutations of each other render byte-identically, provided
the remapped sort keys within each group are pairwise distinct; all
remaining ordering is derived from the sort keys.  (Ties between equal
sort keys are broken by insertion order, and the emitted date line follows
the ambient current date — the counterexample shows both dependencies.) -/
theorem generateHtml_insertion_invariant (d1 d2 : MergedData) (heading : String)
    (maxC : Nat) (url : Option String) (today : String) (h : MergedRel d1 d2) :
    generateHtml d1 heading maxC url today = generateHtml d2 heading maxC url today := by
  unfold MergedRel at h
  unfold generateHtml
  have h1 := exMap_rel (fun x y hxy => keyDay_rel x y hxy) h
  cases hx : exMap keyDay d1 with
  | error e =>
      cases hy : exMap keyDay d2 with
      | error e' => cases e; cases e'; rfl
      | ok kd2 => rw [hx, hy] at h1; simp [ExceptRel] at h1
  | ok kd1 =>
      cases hy : exMap keyDay d2 with
      | error e' => rw [hx, hy] at h1; simp [ExceptRel] at h1
      | ok kd2 =>
          rw [hx, hy] at h1
          simp only [ExceptRel] at h1
          have hsorted := insertionSort_forall₂ dayLe
            (fun a b a' b' ha hb => by
              unfold dayLe; rw [ha.1, hb.1]) h1
          have hrender := exMap_eq_of_rel
            (f := renderDayBody maxC)
            (fun x y hxy => renderDayBody_eq maxC x y hxy) hsorted
          show (match exMap (renderDayBody maxC) (List.insertionSort dayLe kd1) with
              | Except.error e => Except.error e
              | Except.ok bodies =>
                  Except.ok (htmlHeader heading ++
                    (match url with
                     | some u => generatedLine u today
                     | none => "") ++
                    tableOpen ++ String.join bodies ++ tableClose)) =
            (match exMap (renderDayBody maxC) (List.insertionSort dayLe kd2) with
              | Except.error e => Except.error e
              | Except.ok bodies =>
                  Except.ok (htmlHeader heading ++
                    (match url with
                     | some u => generatedLine u today
                     | none => "") ++
                    tableOpen ++ String.join bodies ++ tableClose))
          rw [hrender]

set_option maxRecDepth 100000

/-- Claim C1, counterexample: the output byte sequence is *not* a
function of (merged structure up to group order, heading, maxConcurrency,
URL) alone.  First conjunct: two merged structures holding the same
session sets - the same groups, with one group's list in a different
insertion (completion) order - render differently, because the titles
`"ALENEX Session"` and `"Z Session"` collide on the remapped sort key
`"Z Session"` and Python's stable sort then preserves insertion order.
Second conjunct: with a source URL, the same arguments render differently
on different days, because line 288 interpolates `datetime.now()`. -/
theorem generateHtml_insertion_order_counterexample :
    (generateHtml (tieData [alenexSession, zSession]) "SODA25" 2 none "2026-01-01" ≠
      generateHtml (tieData [zSession, alenexSession]) "SODA25" 2 none "2026-01-01") ∧
    (generateHtml (tieData [alenexSession, zSession]) "SODA25" 2 (some "u") "2026-01-01" ≠
      generateHtml (tieData [alenexSession, zSession]) "SODA25" 2 (some "u") "2026-01-02") := by
  decide

/-- Claim C1, witness for the amended theorem: a group whose two titles
have distinct sort keys renders identically in either insertion order. -/
theorem generateHtml_insertion_invariant_witness :
    generateHtml [("Monday, January 20", [("9:00 AM", [aSession, bSession])])] "H" 2 none "D" =
      generateHtml [("Monday, January 20", [("9:00 AM", [bSession, aSession])])] "H" 2 none "D" :=
  generateHtml_insertion_invariant _ _ _ _ _ _
    (List.Forall₂.cons ⟨rfl,
      List.Forall₂.cons ⟨rfl, List.Perm.swap bSession aSession [], by decide⟩ List.Forall₂.nil⟩
      List.Forall₂.nil)

/-- Claim C2 (code bug): a two-cell continuation row whose day has no
previously appended session is *not* dropped.  When no three-cell row has
run at all, line 157 reads the never-assigned local `time_text` and the
parser dies with `UnboundLocalError` — on `docNoSlot` (a Monday header
followed directly by a two-cell row) the scan returns the error instead
of dropping the row. -/
theorem continuation_without_slot_raises :
    parseMainTable id docNoSlot = Except.error () := by
  rfl

/-- Claim C3 (code bug): a session with a null start time *can* reach the
grouped output.  On `docStaleTime` the unparsable three-cell row leaves
`time_text = "TBD"`; the following two-cell row (whose day has no
appended session yet) falls back to `extract_time("TBD") = (None, None)`
and is appended with `start_time = None`, which then appears as a
grouping key. -/
theorem null_start_time_reaches_output :
    parseMainTable id docStaleTime =
      Except.ok [(some "Monday, January 20",
        [(none, [⟨none, none, "Scheduling Session", "s.html", ""⟩])])] := by
  rfl

/-- Claim C8: a session URL that does not begin with
`https://meetings.siam.org/sess` yields an empty talk list and zero
network requests, whatever the transport would answer. -/
theorem non_session_url_no_fetch (fetch : String → Option DetailPage)
    (resolve : String → String → String) (u t : String)
    (h : startsWithStr u sessUrlStart = false) :
    fetchSessionDetails fetch resolve u t = ([], 0) := by
  unfold fetchSessionDetails
  rw [h]
  rfl

/-- Claim C8, witness: the sentinel link `"#"` takes the early-return
path. -/
theorem non_session_url_no_fetch_witness :
    fetchSessionDetails (fun _ => none) (fun _ h => h) "#" "T" = ([], 0) :=
  non_session_url_no_fetch _ _ _ _ (by decide)

/-- Claim C9: a three-cell slot-start row with no preceding day header is
admitted — there is no `current_day` check in the three-cell branch — and
the session is recorded under the `None` day label, which becomes a key
of the grouped output. -/
theorem three_cell_row_without_day_recorded (resolve : String → String)
    (c0 c1 c2 : Cell) (a : Anchor) (startT : String) (endT : Option String)
    (ha : c1.anchor = some a)
    (ht : extractTime c0.text = (some startT, endT))
    (hf : isTalkSession (cleanSessionTitle a.text) = true) :
    parseMainTable resolve [Row.cells [c0, c1, c2]] =
      Except.ok [(none, [(some startT,
        [⟨some startT, endT, cleanSessionTitle a.text, resolve a.href, c2.text⟩])])] := by
  simp only [parseMainTable, exFoldl, processRow, ht, ha, hf, if_true]
  rfl

/-- Claim C9, witness: a concrete slot-start row before any day header. -/
theorem three_cell_row_without_day_recorded_witness :
    parseMainTable id
      [Row.cells [⟨"5:00 PM", none⟩,
                  ⟨"", some ⟨"SODA Business Meeting Session", "b.html"⟩⟩,
                  ⟨"Hall C", none⟩]] =
      Except.ok [(none, [(some "5:00 PM",
        [⟨some "5:00 PM", none, "SODA Business Meeting Session", "b.html", "Hall C"⟩])])] :=
  three_cell_row_without_day_recorded id ⟨"5:00 PM", none⟩
    ⟨"", some ⟨"SODA Business Meeting Session", "b.html"⟩⟩ ⟨"Hall C", none⟩
    ⟨"SODA Business Meeting Session", "b.html"⟩ "5:00 PM" none rfl rfl rfl

/-- Claim C10: a three-cell row whose session cell has no href-carrying
anchor produces no session at all and only updates `time_text`; unlike
the two-cell branch there is no plain-text/sentinel-link fallback, so the
session map is untouched. -/
theorem three_cell_row_without_link_skipped (resolve : String → String) (st : ParseState)
    (c0 c1 c2 : Cell) (ha : c1.anchor = none) :
    processRow resolve st (Row.cells [c0, c1, c2]) =
      Except.ok { st with timeText := some c0.text } := by
  simp only [processRow]
  cases hext : extractTime c0.text with
  | mk s e =>
      cases s with
      | none => rfl
      | some startT => simp only [ha]

/-- Claim C10, witness: a linkless three-cell row whose cell text would
pass the keyword filter still yields no session (contrast: the same text
in a two-cell row is admitted through the plain-text fallback). -/
theorem three_cell_row_without_link_skipped_witness :
    processRow id {} (Row.cells [⟨"9:00 AM", none⟩, ⟨"SODA Session", none⟩, ⟨"X", none⟩]) =
      Except.ok { currentDay := none, timeText := some "9:00 AM", sessionsByDay := [] } :=
  three_cell_row_without_link_skipped id {} _ _ _ rfl

/-! ### The time-range label (C5) -/

theorem parseEndTimes_of_all_some : ∀ l : List String,
    (∀ e ∈ l, (parseTime12 e).isSome) → parseEndTimes l = some (l.filterMap parseTime12)
  | [], _ => rfl
  | e :: t, h => by
      have he := h e (List.mem_cons_self e t)
      cases hp : parseTime12 e with
      | none => rw [hp] at he; simp at he
      | some v =>
          simp only [parseEndTimes, hp, List.filterMap_cons,
            parseEndTimes_of_all_some t (fun x hx => h x (List.mem_cons_of_mem e hx))]

theorem parseEndTimes_of_mem_none : ∀ l : List String, ∀ e ∈ l,
    parseTime12 e = none → parseEndTimes l = none
  | e' :: t, e, he, hp => by
      rcases List.mem_cons.mp he with h | h
      · subst h
        simp [parseEndTimes, hp]
      · cases hq : parseTime12 e' with
        | none => simp [parseEndTimes, hq]
        | some v => simp [parseEndTimes, hq, parseEndTimes_of_mem_none t e h hp]

/-- Claim C5, counterexample: the label separator is the ASCII
`" - "` of line 237, not the en dash `" – "` the claim states; the two
byte sequences differ. -/
theorem timeRangeLabel_separator_counterexample :
    timeRangeLabel "9:00 AM" [⟨some "9:00 AM", some "10:30 AM", "T", "l", "L"⟩] =
      "9:00 AM - 10:30 AM" ∧
    "9:00 AM - 10:30 AM" ≠ "9:00 AM – 10:30 AM" := by
  decide

/-- Claim C5 (amended): for a `(day, start-time)` group, collect the
non-null end times; with none, or with any failing the `'%I:%M %p'`
parse, the label is the bare start time; when at least one exists and all
parse, the label is the start time, `" - "` (ASCII hyphen), and the
maximum end time re-serialized by `strftime('%I:%M %p').lstrip('0')`. -/
theorem timeRangeLabel_spec (startTime : String) (sessions : List SessionRec) :
    (sessions.filterMap (·.end_time) = [] →
      timeRangeLabel startTime sessions = startTime) ∧
    ((∃ e ∈ sessions.filterMap (·.end_time), parseTime12 e = none) →
      timeRangeLabel startTime sessions = startTime) ∧
    (sessions.filterMap (·.end_time) ≠ [] →
      (∀ e ∈ sessions.filterMap (·.end_time), (parseTime12 e).isSome) →
      timeRangeLabel startTime sessions =
        startTime ++ " - " ++ lstripZeros (fmtClock
          (((sessions.filterMap (·.end_time)).filterMap parseTime12).foldl Nat.max 0))) := by
  refine ⟨fun h => ?_, fun h => ?_, fun h1 h2 => ?_⟩
  · simp [timeRangeLabel, h]
  · obtain ⟨e, he, hp⟩ := h
    by_cases hemp : (sessions.filterMap (·.end_time)).isEmpty
    · simp [timeRangeLabel, hemp]
    · simp [timeRangeLabel, hemp,
        parseEndTimes_of_mem_none (sessions.filterMap (·.end_time)) e he hp]
  · have hemp : (sessions.filterMap (·.end_time)).isEmpty = false := by
      cases hl : sessions.filterMap (·.end_time) with
      | nil => exact absurd hl h1
      | cons a t => simp [hl]
    simp [timeRangeLabel, hemp, parseEndTimes_of_all_some _ h2]

/-- Claim C5, witness: a group with end times `"09:05 am"` and
`"10:30 AM"` gets the label `"9:00 AM - 10:30 AM"` (maximum end time,
reformatted, after the ASCII hyphen). -/
theorem timeRangeLabel_spec_witness :
    timeRangeLabel "9:00 AM"
      [⟨some "9:00 AM", some "09:05 am", "A Session", "l1", "L"⟩,
       ⟨some "9:00 AM", some "10:30 AM", "B Session", "l2", "L"⟩] = "9:00 AM - 10:30 AM" := by
  have h := (timeRangeLabel_spec "9:00 AM"
    [⟨some "9:00 AM", some "09:05 am", "A Session", "l1", "L"⟩,
     ⟨some "9:00 AM", some "10:30 AM", "B Session", "l2", "L"⟩]).2.2 (by decide) (by decide)
  rw [h]
  decide

/-! ### The multi-session ordering (C4) -/

/-- Claim C4, counterexample: a title beginning with `ALENEX` is *not*
placed after every non-`ALENEX` title.  `"ALENEX Session"` is remapped to
`"Z Session"`, which still compares below the lowercase-initial
`"a session"` (`'Z' < 'a'` by code point), so the renderer puts the
`ALENEX` session first even though the other session's title does not
begin with (or even contain) `ALENEX`. -/
theorem alenex_not_last_counterexample :
    sortSessions [lowercaseSession, alenexSession] = [alenexSession, lowercaseSession] ∧
    startsWithStr alenexSession.title "ALENEX" = true ∧
    inStr "ALENEX" lowercaseSession.title = false := by
  decide

/-- Claim C4 (amended): a multi-session group is ordered by string
comparison of the titles with every occurrence of `ALENEX` replaced by
`"Z"` (line 330) — so an `ALENEX`-prefixed title moves after exactly the
titles below its `Z`-form, e.g. after capitalized titles up to `Z` but
not after lowercase-initial ones. -/
theorem sortSessions_by_replaced_title (l : List SessionT) :
    (sortSessions l).Perm l ∧
    List.Sorted
      (fun a b => strLe (pyReplace a.title "ALENEX" "Z") (pyReplace b.title "ALENEX" "Z") = true)
      (sortSessions l) :=
  ⟨sortSessions_perm l, sortSessions_sorted l⟩

/-! ### Grid width (C6) -/

theorem le_foldl_of_step {α : Type} (step : Nat → α → Nat) (hstep : ∀ m a, m ≤ step m a) :
    ∀ (l : List α) (init : Nat), init ≤ l.foldl step init
  | [], _ => le_refl _
  | a :: t, init => le_trans (hstep init a) (le_foldl_of_step step hstep t _)

theorem foldl_ge_of_mem {α : Type} (step : Nat → α → Nat) (hstep : ∀ m a, m ≤ step m a)
    (v : Nat) : ∀ (l : List α) (init : Nat) (a : α), a ∈ l → (∀ m, v ≤ step m a) →
      v ≤ l.foldl step init
  | b :: t, init, a, ha, hv => by
      rcases List.mem_cons.mp ha with h | h
      · subst h
        exact le_trans (hv init) (le_foldl_of_step step hstep t _)
      · exact foldl_ge_of_mem step hstep v t _ a h hv

/-- Any group's session count is bounded by the global scan's result. -/
theorem group_length_le_max (data : MergedData) (day : String)
    (groups : List (String × List SessionT)) (tr : String) (sessions : List SessionT)
    (hd : (day, groups) ∈ data) (hg : (tr, sessions) ∈ groups) :
    sessions.length ≤ determineMaxConcurrentSessions data := by
  unfold determineMaxConcurrentSessions
  refine foldl_ge_of_mem _
    (fun m p => le_foldl_of_step _ (fun m' q => Nat.le_max_left m' q.2.length) p.2 m)
    sessions.length data 0 (day, groups) hd (fun m => ?_)
  exact foldl_ge_of_mem _ (fun m' q => Nat.le_max_left m' q.2.length)
    sessions.length groups m (tr, sessions) hg
    (fun m' => Nat.le_max_right m' sessions.length)

/-- Claim C6: with `maxConcurrency` computed by
`determine_max_concurrent_sessions` over the same dataset, every rendered
group spans exactly that many columns: a single-session group is one cell
with `colspan = maxConcurrency`; a multi-session group emits exactly
`maxConcurrency` `<td>` cells — the sorted sessions one per cell, the
rest empty padding. -/
theorem row_width_eq_max_concurrency (data : MergedData) (maxC : Nat) (day : String)
    (groups : List (String × List SessionT)) (tr : String) (sessions : List SessionT)
    (hmax : maxC = determineMaxConcurrentSessions data)
    (hd : (day, groups) ∈ data) (hg : (tr, sessions) ∈ groups) :
    (multiCells maxC (sortSessions sessions)).length = maxC ∧
    (∀ i : Nat, ∀ s : SessionT, (sortSessions sessions).get? i = some s →
      (multiCells maxC (sortSessions sessions)).get? i = some (sessionTd s)) ∧
    (∀ i : Nat, sessions.length ≤ i → i < maxC →
      (multiCells maxC (sortSessions sessions)).get? i = some emptyTd) ∧
    (∀ s : SessionT, sessions = [s] →
      timeRangeRow maxC tr sessions = singleSessionRow maxC tr s) ∧
    (2 ≤ sessions.length → timeRangeRow maxC tr sessions = multiRow maxC sessions) := by
  have hlen : (sortSessions sessions).length = sessions.length :=
    (sortSessions_perm sessions).length_eq
  have hle : sessions.length ≤ maxC :=
    hmax ▸ group_length_le_max data day groups tr sessions hd hg
  refine ⟨by simp [multiCells], fun i s hs => ?_, fun i h1 h2 => ?_, fun s hs => ?_,
    fun h2 => ?_⟩
  · obtain ⟨hi, -⟩ := List.get?_eq_some.mp hs
    have himax : i < maxC := by omega
    simp only [multiCells, List.get?_map, List.get?_range himax, Option.map_some', hs]
  · have hnone : (sortSessions sessions).get? i = none := List.get?_eq_none.mpr (by omega)
    simp only [multiCells, List.get?_map, List.get?_range h2, Option.map_some', hnone]
  · subst hs; rfl
  · cases sessions with
    | nil => simp at h2
    | cons a t =>
        cases t with
        | nil => simp at h2
        | cons b u => rfl

/-- Claim C6, witness: on `widthData` (global maximum 2) the two-session
group renders exactly two cells. -/
theorem row_width_eq_max_concurrency_witness :
    (multiCells (determineMaxConcurrentSessions widthData)
      (sortSessions [aSession, bSession])).length = determineMaxConcurrentSessions widthData :=
  (row_width_eq_max_concurrency widthData (determineMaxConcurrentSessions widthData)
    "Monday, January 20" [("9:00 AM", [aSession, bSession]), ("5:00 PM", [zSession])]
    "9:00 AM" [aSession, bSession] rfl (by decide) (by decide)).1

/-! ### The keyword filter invariant (C7) -/

theorem appendSession_talk (P : SessionRec → Prop) :
    ∀ (m : DayMap) (d : Option String) (s : SessionRec),
      (∀ p ∈ m, ∀ x ∈ p.2, P x) → P s →
      ∀ p ∈ appendSession m d s, ∀ x ∈ p.2, P x
  | [], d, s, _, hs, p, hp, x, hx => by
      simp only [appendSession, List.mem_singleton] at hp
      subst hp
      simp only [List.mem_singleton] at hx
      subst hx
      exact hs
  | (k, ss) :: t, d, s, hm, hs, p, hp, x, hx => by
      by_cases hk : k = d
      · simp only [appendSession, if_pos hk, List.mem_cons] at hp
        rcases hp with hp | hp
        · subst hp
          rcases List.mem_append.mp hx with h | h
          · exact hm (k, ss) (List.mem_cons_self _ _) x h
          · simp only [List.mem_singleton] at h
            subst h
            exact hs
        · exact hm p (List.mem_cons_of_mem _ hp) x hx
      · simp only [appendSession, if_neg hk, List.mem_cons] at hp
        rcases hp with hp | hp
        · subst hp
          exact hm (k, ss) (List.mem_cons_self _ _) x hx
        · exact appendSession_talk P t d s
            (fun q hq y hy => hm q (List.mem_cons_of_mem _ hq) y hy) hs p hp x hx

theorem touchKey_talk (P : SessionRec → Prop) :
    ∀ (m : DayMap) (d : Option String),
      (∀ p ∈ m, ∀ x ∈ p.2, P x) →
      ∀ p ∈ touchKey m d, ∀ x ∈ p.2, P x
  | [], d, _, p, hp, x, hx => by
      simp only [touchKey, List.mem_singleton] at hp
      subst hp
      simp at hx
  | (k, ss) :: t, d, hm, p, hp, x, hx => by
      by_cases hk : k = d
      · rw [touchKey, if_pos hk] at hp
        exact hm p hp x hx
      · rw [touchKey, if_neg hk] at hp
        rcases List.mem_cons.mp hp with h | h
        · subst h
          exact hm (k, ss) (List.mem_cons_self _ _) x hx
        · exact touchKey_talk P t d
            (fun q hq y hy => hm q (List.mem_cons_of_mem _ hq) y hy) p h x hx

/-- Every session the scan loop accumulates has a title passing
`is_talk_session` (the filter guards both `append` sites; the only other
map growth, the `defaultdict` touch, adds an empty list). -/
theorem processRow_talk (resolve : String → String) (st st' : ParseState) (r : Row)
    (h : processRow resolve st r = Except.ok st')
    (hinv : ∀ p ∈ st.sessionsByDay, ∀ x ∈ p.2, isTalkSession x.title = true) :
    ∀ p ∈ st'.sessionsByDay, ∀ x ∈ p.2, isTalkSession x.title = true := by
  cases r with
  | colspanned text =>
      simp only [processRow] at h
      cases h
      split <;> exact hinv
  | cells tds =>
      match tds with
      | [] =>
          simp only [processRow] at h
          cases h
          exact hinv
      | [t0, t1, t2] =>
          simp only [processRow] at h
          split at h
          · cases h; exact hinv
          · split at h
            · cases h; exact hinv
            · split at h
              · cases h
                exact appendSession_talk _ _ _ _ hinv (by assumption)
              · cases h; exact hinv
      | [t0, t1] =>
          simp only [processRow] at h
          split at h
          · cases h; exact hinv
          · split at h
            · split at h
              · cases h
                exact appendSession_talk _ _ _ _
                  (touchKey_talk _ st.sessionsByDay _ hinv) (by assumption)
              · cases h
                exact touchKey_talk _ st.sessionsByDay _ hinv
            · split at h
              · cases h
              · split at h
                · cases h
                  exact appendSession_talk _ _ _ _
                    (touchKey_talk _ st.sessionsByDay _ hinv) (by assumption)
                · cases h
                  exact touchKey_talk _ st.sessionsByDay _ hinv
      | [t0] =>
          simp only [processRow] at h
          cases h
          exact hinv
      | t0 :: t1 :: t2 :: t3 :: rest =>
          simp only [processRow] at h
          cases h
          exact hinv

theorem exFoldl_talk (resolve : String → String) : ∀ (rows : List Row) (st st' : ParseState),
    exFoldl (processRow resolve) st rows = Except.ok st' →
    (∀ p ∈ st.sessionsByDay, ∀ x ∈ p.2, isTalkSession x.title = true) →
    ∀ p ∈ st'.sessionsByDay, ∀ x ∈ p.2, isTalkSession x.title = true
  | [], st, st', h, hi => by
      simp only [exFoldl] at h
      cases h
      exact hi
  | r :: t, st, st', h, hi => by
      simp only [exFoldl] at h
      cases hr : processRow resolve st r with
      | error e => rw [hr] at h; cases h
      | ok s1 =>
          rw [hr] at h
          exact exFoldl_talk resolve t s1 st' h (processRow_talk resolve st s1 r hr hi)

theorem appendByStart_talk (P : SessionRec → Prop) :
    ∀ (inner : List (Option String × List SessionRec)) (s : SessionRec),
      (∀ q ∈ inner, ∀ x ∈ q.2, P x) → P s →
      ∀ q ∈ appendByStart inner s, ∀ x ∈ q.2, P x
  | [], s, _, hs, q, hq, x, hx => by
      simp only [appendByStart, List.mem_singleton] at hq
      subst hq
      simp only [List.mem_singleton] at hx
      subst hx
      exact hs
  | (st, ss) :: t, s, hi, hs, q, hq, x, hx => by
      by_cases hk : st = s.start_time
      · simp only [appendByStart, if_pos hk, List.mem_cons] at hq
        rcases hq with hq | hq
        · subst hq
          rcases List.mem_append.mp hx with h | h
          · exact hi (st, ss) (List.mem_cons_self _ _) x h
          · simp only [List.mem_singleton] at h
            subst h
            exact hs
        · exact hi q (List.mem_cons_of_mem _ hq) x hx
      · simp only [appendByStart, if_neg hk, List.mem_cons] at hq
        rcases hq with hq | hq
        · subst hq
          exact hi (st, ss) (List.mem_cons_self _ _) x hx
        · exact appendByStart_talk P t s
            (fun q' hq' y hy => hi q' (List.mem_cons_of_mem _ hq') y hy) hs q hq x hx

theorem appendGrouped_talk (P : SessionRec → Prop) :
    ∀ (g : Grouped) (d : Option String) (s : SessionRec),
      (∀ p ∈ g, ∀ q ∈ p.2, ∀ x ∈ q.2, P x) → P s →
      ∀ p ∈ appendGrouped g d s, ∀ q ∈ p.2, ∀ x ∈ q.2, P x
  | [], d, s, _, hs, p, hp, q, hq, x, hx => by
      simp only [appendGrouped, List.mem_singleton] at hp
      subst hp
      simp only [List.mem_singleton] at hq
      subst hq
      simp only [List.mem_singleton] at hx
      subst hx
      exact hs
  | (k, inner) :: t, d, s, hg, hs, p, hp, q, hq, x, hx => by
      by_cases hk : k = d
      · simp only [appendGrouped, if_pos hk, List.mem_cons] at hp
        rcases hp with hp | hp
        · subst hp
          exact appendByStart_talk P inner s
            (fun q' hq' y hy => hg (k, inner) (List.mem_cons_self _ _) q' hq' y hy)
            hs q hq x hx
        · exact hg p (List.mem_cons_of_mem _ hp) q hq x hx
      · simp only [appendGrouped, if_neg hk, List.mem_cons] at hp
        rcases hp with hp | hp
        · subst hp
          exact hg (k, inner) (List.mem_cons_self _ _) q hq x hx
        · exact appendGrouped_talk P t d s
            (fun p' hp' q' hq' y hy => hg p' (List.mem_cons_of_mem _ hp') q' hq' y hy)
            hs p hp q hq x hx

theorem foldl_appendGrouped_talk (P : SessionRec → Prop) (d : Option String) :
    ∀ (ss : List SessionRec) (g : Grouped),
      (∀ p ∈ g, ∀ q ∈ p.2, ∀ x ∈ q.2, P x) → (∀ s ∈ ss, P s) →
      ∀ p ∈ ss.foldl (fun g' s => appendGrouped g' d s) g, ∀ q ∈ p.2, ∀ x ∈ q.2, P x
  | [], g, hg, _ => hg
  | s :: t, g, hg, hs => by
      simp only [List.foldl_cons]
      exact foldl_appendGrouped_talk P d t (appendGrouped g d s)
        (appendGrouped_talk P g d s hg (hs s (List.mem_cons_self _ _)))
        (fun y hy => hs y (List.mem_cons_of_mem _ hy))

theorem groupSessions_talk (P : SessionRec → Prop) :
    ∀ (sbd : DayMap) (g : Grouped),
      (∀ p ∈ g, ∀ q ∈ p.2, ∀ x ∈ q.2, P x) →
      (∀ p ∈ sbd, ∀ s ∈ p.2, P s) →
      ∀ p ∈ sbd.foldl (fun g' p => p.2.foldl (fun g'' s => appendGrouped g'' p.1 s) g') g,
        ∀ q ∈ p.2, ∀ x ∈ q.2, P x
  | [], g, hg, _ => hg
  | (d, ss) :: t, g, hg, hsbd => by
      simp only [List.foldl_cons]
      exact groupSessions_talk P t _
        (foldl_appendGrouped_talk P d ss g hg
          (fun s hs => hsbd (d, ss) (List.mem_cons_self _ _) s hs))
        (fun p hp s hs => hsbd p (List.mem_cons_of_mem _ hp) s hs)

/-- Claim C7, counterexample: the link-less two-cell fallback stores the
*raw* cell text and filters on it, so `"CP3 Algorithms"` is admitted to
the grouped output (its `CP` contest-code prefix matches the `CP`
keyword) even though its cleaned title `"Algorithms"` matches no keyword
— refuting "a session whose cleaned title contains none of the keywords
is never admitted". -/
theorem uncleaned_title_kept_counterexample :
    parseMainTable id docRawCp =
      Except.ok [(some "Monday, January 20",
        [(some "9:00 AM", [graphSession, rawCpSession])])] ∧
    cleanSessionTitle rawCpSession.title = "Algorithms" ∧
    isTalkSession "Algorithms" = false := by
  exact ⟨rfl, rfl, rfl⟩

/-- Claim C7 (amended): the filter is applied to the title the parser
*stores* — the cleaned anchor text for linked rows, the raw cell text for
the link-less two-cell fallback — and every session in the grouped output
satisfies `is_talk_session` on that stored title. -/
theorem stored_titles_pass_filter (resolve : String → String) (rows : List Row)
    (g : Grouped) (h : parseMainTable resolve rows = Except.ok g) :
    ∀ p ∈ g, ∀ q ∈ p.2, ∀ s ∈ q.2, isTalkSession s.title = true := by
  unfold parseMainTable at h
  cases hf : exFoldl (processRow resolve) {} rows with
  | error e => rw [hf] at h; cases h
  | ok st =>
      rw [hf] at h
      cases h
      exact groupSessions_talk _ st.sessionsByDay []
        (by intro p hp; cases hp)
        (exFoldl_talk resolve rows {} st hf (by intro p hp; cases hp))

/-- Claim C7, witness: the filter invariant instantiated on `docRawCp` —
the stored (raw) title of the fallback-admitted session passes the
filter. -/
theorem stored_titles_pass_filter_witness :
    isTalkSession rawCpSession.title = true :=
  stored_titles_pass_filter id docRawCp
    [(some "Monday, January 20", [(some "9:00 AM", [graphSession, rawCpSession])])] rfl
    (some "Monday, January 20", [(some "9:00 AM", [graphSession, rawCpSession])])
    (by decide)
    (some "9:00 AM", [graphSession, rawCpSession]) (by decide)
    rawCpSession (by decide)

end Soda











